import Mathlib

/-!
# Verification of the AI news aggregator core pipeline

Shallow embedding of the fetch-and-rank pipeline of the repository
(`utils/parsing.py`, `utils/fetch.py`, `config/feeds.py`) and proofs of the
spec's claims about it.

Conventions of the embedding:
* Python strings are Lean `String`s; `str.lower()` is `strToLower`
  (ASCII case folding, which covers all configured keywords).
* Python float arithmetic on the score constants is modelled by exact `ℚ`
  arithmetic; every constant involved (0.1, 0.2, 0.4, 0.6, 1.0, the 40/30/15/24/48/72
  weights) combines without rounding at the comparisons the code performs,
  so the two semantics agree on all branches taken.
* `hashlib.md5(...).hexdigest()` is modelled as an injective function, i.e. a
  fingerprint is represented by its preimage (the first 50 lowercased
  characters of the cleaned title).
* Network effects (`aiohttp` responses, `feedparser` output, the
  translation service) are supplied as oracle functions / outcome values.
-/

/-- `charsStartsWith s p` : `p` is a leading run of `s` (Python `s.startswith(p)`). -/
def charsStartsWith : List Char → List Char → Bool
  | _, [] => true
  | [], _ :: _ => false
  | a :: as, b :: bs => a == b && charsStartsWith as bs

/-- `charsContains hay pat` : `pat` occurs as a contiguous run of `hay`
(Python `pat in hay` on strings; the empty pattern is always found). -/
def charsContains : List Char → List Char → Bool
  | [], pat => pat.isEmpty
  | hay@(_ :: rest), pat => charsStartsWith hay pat || charsContains rest pat

/-- Python `pat in hay` substring test on strings. -/
def strContains (hay pat : String) : Bool :=
  charsContains hay.data pat.data

/-- Python `s.lower()` (ASCII case folding), kept kernel-reducible by mapping
over the character list directly. -/
def strToLower (s : String) : String :=
  ⟨s.data.map Char.toLower⟩

/-- Case-insensitive `charsStartsWith` (used for `re.IGNORECASE` literals). -/
def charsStartsWithCI : List Char → List Char → Bool
  | _, [] => true
  | [], _ :: _ => false
  | a :: as, b :: bs => a.toLower == b.toLower && charsStartsWithCI as bs

/-- Case-insensitive equality of character runs. -/
def charsEqCI (s t : List Char) : Bool :=
  s.length == t.length && charsStartsWithCI s t

/-- Python `\s` character class (ASCII part). -/
def isWsChar (c : Char) : Bool :=
  c == ' ' || c == '\t' || c == '\n' || c == '\r' || c == '\x0b' || c == '\x0c'

/-- Python `\w` character class (ASCII part). -/
def isWordChar (c : Char) : Bool :=
  c.isAlphanum || c == '_'

/-- The `\x7b` character (written via `Char.ofNat` to keep it out of literals). -/
def lbraceChar : Char := Char.ofNat 123

/-- The `\x7d` character. -/
def rbraceChar : Char := Char.ofNat 125

/-! ## Configuration data (`config/feeds.py`) -/

/-- `AI_KEYWORDS` from `config/feeds.py`. -/
def AI_KEYWORDS : List String :=
  ["ai", "artificial intelligence", "machine learning", "deep learning",
   "neural network", "nlp", "natural language", "computer vision",
   "ml", "generative ai", "llm", "gpt", "chatgpt", "gemini", "claude",
   "stable diffusion", "dall-e", "midjourney", "anthropic", "openai",
   "ml ops", "mlops", "rag", "retrieval", "embedding", "transformer",
   "fine-tuning", "fine tune", "inference", "data science", "prompt"]

/-- `EXCLUDE_KEYWORDS` from `config/feeds.py`. -/
def EXCLUDE_KEYWORDS : List String :=
  ["sponsor", "sponsored", "advertisement", "promoción",
   "webinar", "register now", "limited time", "discount"]

/-- `SOURCE_NAME_MAPPING` from `config/feeds.py` (insertion order preserved,
matching Python dict iteration order). -/
def SOURCE_NAME_MAPPING : List (String × String) :=
  [("blog.research.google", "Google AI Blog"),
   ("www.technologyreview.com", "MIT Tech Review"),
   ("venturebeat.com", "VentureBeat"),
   ("arstechnica.com", "Ars Technica"),
   ("www.zdnet.com", "ZDNet"),
   ("www.anthropic.com", "Anthropic"),
   ("stability.ai", "Stability AI"),
   ("blog.google", "Google Blog"),
   ("spectrum.ieee.org", "IEEE Spectrum"),
   ("aitrends.com", "AI Trends"),
   ("www.unite.ai", "Unite.AI"),
   ("aijourn.com", "The AI Journal"),
   ("aibusiness.com", "AI Business"),
   ("www.analyticsinsight.net", "Analytics Insight"),
   ("www.kdnuggets.com", "KDnuggets"),
   ("towardsdatascience.com", "Towards Data Science"),
   ("medium.com", "Medium"),
   ("openai.com", "OpenAI"),
   ("deepmind.com", "DeepMind")]

/-- The trusted-source token list inlined in `prioritize_articles`. -/
def TRUSTED_SOURCES : List String :=
  ["google", "openai", "anthropic", "deepmind", "microsoft", "mit", "ieee", "arxiv"]

/-! ## Relevance scorer (`parsing.py`, `get_article_relevance_score`) -/

/-- `get_article_relevance_score(title, content)` from `utils/parsing.py`.
Returns `(is_relevant, score)`; the Python float arithmetic is carried out
exactly in `ℚ`. `content = none` models the `content=None` default. -/
def get_article_relevance_score (title : String) (content : Option String) :
    Bool × ℚ :=
  if title = "" then (false, 0)
  else
    let title_lower := strToLower title
    if EXCLUDE_KEYWORDS.any (fun kw => strContains title_lower (strToLower kw)) then
      (false, 0)
    else
      let title_keywords :=
        AI_KEYWORDS.filter (fun kw => strContains title_lower (strToLower kw))
      let score₁ : ℚ :=
        if title_keywords.length ≠ 0 then
          min (6/10) (title_keywords.length * (2/10)) else 0
      let score₂ : ℚ :=
        match content with
        | some c =>
          if c ≠ "" ∧ 100 < c.length then
            let content_keywords :=
              AI_KEYWORDS.filter (fun kw => strContains (strToLower c) (strToLower kw))
            if content_keywords.length ≠ 0 then
              min (4/10) (content_keywords.length * (1/10)) else 0
          else 0
        | none => 0
      let score := score₁ + score₂
      (decide ((1:ℚ)/10 < score), min 1 score)

/-- `is_relevant_article(title, content)` from `utils/parsing.py`. -/
def is_relevant_article (title : String) (content : Option String) : Bool :=
  (get_article_relevance_score title content).1

/-! ## Title cleaning (`parsing.py`, `clean_title`)

Each `re.sub` of the source is embedded as a dedicated scanner with the same
leftmost-match / greediness semantics as the Python pattern. The only
deliberate deviation: `.` is modelled as matching any character (Python `.`
does not match a newline), which is irrelevant for newline-free titles. -/

/-- Python `str.strip()` of trailing whitespace. -/
def dropTrailingWsChars (s : List Char) : List Char :=
  (s.reverse.dropWhile isWsChar).reverse

/-- Python `str.strip()` (ASCII whitespace). -/
def stripChars (s : List Char) : List Char :=
  dropTrailingWsChars (s.dropWhile isWsChar)

/-- `re.sub(r'<[^>]+>', '', title)`: a match is `<`, one or more non-`>`
characters, then `>`; non-matching `<` is kept and scanning resumes at the
next character. Fuel is the input length, which bounds the recursion. -/
def removeHtmlTagsAux : ℕ → List Char → List Char
  | 0, s => s
  | _ + 1, [] => []
  | fuel + 1, c :: rest =>
    if c == '<' then
      match rest.dropWhile (fun d => !(d == '>')) with
      | _ :: rest' =>
        if (rest.takeWhile (fun d => !(d == '>'))).isEmpty then
          c :: removeHtmlTagsAux fuel rest
        else removeHtmlTagsAux fuel rest'
      | [] => c :: removeHtmlTagsAux fuel rest
    else c :: removeHtmlTagsAux fuel rest

/-- The alternation of `^(Breaking|Update|News|Exclusive|Just In|Watch|Read)`. -/
def PREFIX_WORDS : List String :=
  ["Breaking", "Update", "News", "Exclusive", "Just In", "Watch", "Read"]

/-- The character class `[:\s\-\[\]\|]`. -/
def isBoilerplateSepChar (c : Char) : Bool :=
  c == ':' || isWsChar c || c == '-' || c == '[' || c == ']' || c == '|'

/-- `re.sub(r'^(Breaking|...|Read)[:\s\-\[\]\|]+', '', title, flags=IGNORECASE)`:
anchored at the start, so at most one removal; the word must be followed by at
least one separator character, and the separator run is consumed greedily. -/
def stripLeadingBoilerplate (s : List Char) : List Char :=
  match PREFIX_WORDS.findSome? (fun w =>
    if charsStartsWithCI s w.data then
      match s.drop w.data.length with
      | c :: rest =>
        if isBoilerplateSepChar c then some (rest.dropWhile isBoilerplateSepChar)
        else none
      | [] => none
    else none) with
  | some r => r
  | none => s

/-- The alternation `(Read More|Subscribe|Full Article)`. -/
def SUFFIX_PHRASES : List String := ["Read More", "Subscribe", "Full Article"]

/-- The character class `[\-\|]`. -/
def isDashChar (c : Char) : Bool := c == '-' || c == '|'

/-- After a dash, `\s*(Read More|Subscribe|Full Article)` matches (the
trailing `.*$` imposes no further constraint). -/
def suffixPhraseAfterDash (rest : List Char) : Bool :=
  let r := rest.dropWhile isWsChar
  SUFFIX_PHRASES.any (fun p => charsStartsWithCI r p.data)

/-- Cut the input at the first dash `d` for which `cond` holds on the
remainder, returning the prefix before `d` (the whole match runs to the end
of the string, so everything from `d` on is deleted). -/
def cutAtQualifyingDash (cond : List Char → Bool) : List Char → Option (List Char)
  | [] => none
  | c :: rest =>
    if isDashChar c && cond rest then some []
    else (cutAtQualifyingDash cond rest).map (c :: ·)

/-- `re.sub(r'\s*[\-\|]\s*(Read More|Subscribe|Full Article).*$', '', title,
flags=IGNORECASE)`. The leftmost match starts at the whitespace run preceding
the first qualifying dash, so that run is stripped from the kept prefix. -/
def stripSuffixBoilerplate (s : List Char) : List Char :=
  match cutAtQualifyingDash suffixPhraseAfterDash s with
  | some pre => dropTrailingWsChars pre
  | none => s

/-- After a dash, `\s*(\w+\.com|\w+\.org)$` matches: whitespace, a non-empty
word-character run, then exactly `.com` or `.org` (case-insensitively) at the
end of the string. `\w+` cannot contain `.`, so maximal munch is forced. -/
def domainSuffixAfterDash (rest : List Char) : Bool :=
  let r := rest.dropWhile isWsChar
  let w := r.takeWhile isWordChar
  let t := r.dropWhile isWordChar
  !w.isEmpty && (charsEqCI t ".com".data || charsEqCI t ".org".data)

/-- `re.sub(r'\s*[\-\|]\s*(\w+\.com|\w+\.org)$', '', title, flags=IGNORECASE)`. -/
def stripDomainSuffix (s : List Char) : List Char :=
  match cutAtQualifyingDash domainSuffixAfterDash s with
  | some pre => dropTrailingWsChars pre
  | none => s

/-- First occurrence of `tok`; returns the remainder after it (the non-greedy
`.*?` before a literal closer matches up to the closer's first occurrence). -/
def findCloseTok : List Char → List Char → Option (List Char)
  | [], _ => none
  | s@(_ :: rest), tok =>
    if charsStartsWith s tok then some (s.drop tok.length)
    else findCloseTok rest tok

/-- `re.sub(r'\s*OPEN.*?CLOSE\s*', ' ', s)` for literal open/close tokens:
each match (leading whitespace, opener, shortest body, closer, trailing
whitespace) is replaced by a single space; scanning resumes after the match. -/
def replaceTemplatesAux (openTok closeTok : List Char) : ℕ → List Char → List Char
  | 0, s => s
  | _ + 1, [] => []
  | fuel + 1, s@(c :: rest) =>
    let afterWs := s.dropWhile isWsChar
    if charsStartsWith afterWs openTok then
      match findCloseTok (afterWs.drop openTok.length) closeTok with
      | some afterClose =>
        ' ' :: replaceTemplatesAux openTok closeTok fuel (afterClose.dropWhile isWsChar)
      | none => c :: replaceTemplatesAux openTok closeTok fuel rest
    else c :: replaceTemplatesAux openTok closeTok fuel rest

/-- `re.sub(r'%20', ' ', s)`. -/
def replacePercent20 : List Char → List Char
  | '%' :: '2' :: '0' :: rest => ' ' :: replacePercent20 rest
  | c :: rest => c :: replacePercent20 rest
  | [] => []

/-- `re.sub(r'%\w{2}', '', s)`. -/
def removePercentEscapes : List Char → List Char
  | '%' :: a :: b :: rest =>
    if isWordChar a && isWordChar b then removePercentEscapes rest
    else '%' :: removePercentEscapes (a :: b :: rest)
  | c :: rest => c :: removePercentEscapes rest
  | [] => []

/-- `re.sub(r'\s+', ' ', s)`. -/
def collapseWsAux : ℕ → List Char → List Char
  | 0, s => s
  | _ + 1, [] => []
  | fuel + 1, c :: rest =>
    if isWsChar c then ' ' :: collapseWsAux fuel (rest.dropWhile isWsChar)
    else c :: collapseWsAux fuel rest

/-- `clean_title(title)` from `utils/parsing.py`: the chain of `re.sub`
normalisations in source order, then whitespace collapse and strip.
(The `@lru_cache` decorator is memoisation of a pure function and is not
modelled.) -/
def clean_title (title : String) : String :=
  if title = "" then ""
  else
    let s1 := removeHtmlTagsAux title.data.length title.data
    let s2 := stripLeadingBoilerplate s1
    let s3 := stripSuffixBoilerplate s2
    let s4 := stripDomainSuffix s3
    let s5 := replaceTemplatesAux [lbraceChar, lbraceChar] [rbraceChar, rbraceChar] s4.length s4
    let s6 := replaceTemplatesAux ['$', lbraceChar] [rbraceChar] s5.length s5
    let s7 := replacePercent20 s6
    let s8 := removePercentEscapes s7
    let s9 := collapseWsAux s8.length s8
    ⟨stripChars s9⟩

/-- The dedup fingerprint `hashlib.md5(title.lower()[:50].encode()).hexdigest()`
from `process_feed_entries`. MD5 is modelled as an injective function, so the
fingerprint is represented by its preimage: the first 50 lowercased
characters of the (cleaned) title. -/
def title_fingerprint (title : String) : String :=
  ⟨(strToLower title).data.take 50⟩

/-! ## Source display names (`parsing.py`, `get_source_display_name`) -/

/-- Strip a leading `scheme:` (RFC 3986 scheme characters, first one a
letter) from a URL, as `urllib.parse.urlparse` does. -/
def dropScheme (s : List Char) : List Char :=
  let pre := s.takeWhile (fun c => c.isAlphanum || c == '+' || c == '-' || c == '.')
  match pre, s.drop pre.length with
  | c :: _, ':' :: r => if c.isAlpha then r else s
  | _, _ => s

/-- The part of the netloc after the last `@` (userinfo removal). -/
def afterLastAt (s : List Char) : List Char :=
  (s.reverse.takeWhile (fun c => !(c == '@'))).reverse

/-- `urlparse(url).hostname`: present only when the URL has a `//` netloc;
userinfo and port are stripped and the result lowercased. `None` for an
empty host. -/
def urlHostname (url : String) : Option String :=
  let s := dropScheme url.data
  if charsStartsWith s ['/', '/'] then
    let netloc := (s.drop 2).takeWhile (fun c => !(c == '/') && !(c == '?') && !(c == '#'))
    let host := (afterLastAt netloc).takeWhile (fun c => !(c == ':'))
    if host.isEmpty then none else some ⟨host.map Char.toLower⟩
  else none

/-- Python `str.replace(pat, '')` for a non-empty literal `pat`. -/
def removeAllRuns (pat : List Char) : ℕ → List Char → List Char
  | 0, s => s
  | _ + 1, [] => []
  | fuel + 1, s@(c :: rest) =>
    if charsStartsWith s pat && !pat.isEmpty then
      removeAllRuns pat fuel (s.drop pat.length)
    else c :: removeAllRuns pat fuel rest

/-- Python `str.capitalize()`. -/
def strCapitalize (s : String) : String :=
  match s.data with
  | [] => ""
  | c :: rest => ⟨c.toUpper :: rest.map Char.toLower⟩

/-- `get_source_display_name(url)` from `utils/parsing.py`: first matching
`SOURCE_NAME_MAPPING` key that is a substring of the hostname wins (mapping
insertion order); otherwise `hostname.replace("www.", "").split('.')[0].capitalize()`;
no hostname yields `"Unknown Source"`. -/
def get_source_display_name (url : String) : String :=
  match urlHostname url with
  | some hostname =>
    match SOURCE_NAME_MAPPING.findSome?
        (fun kv => if strContains hostname kv.1 then some kv.2 else none) with
    | some name => name
    | none =>
      let noWww := removeAllRuns "www.".data hostname.data.length hostname.data
      strCapitalize ⟨noWww.takeWhile (fun c => !(c == '.'))⟩
  | none => "Unknown Source"

/-! ## Data model -/

/-- A normalized feed entry (`feedparser` record). `published_datetime` holds
the value `extract_published_datetime` would produce for the entry (a
timestamp measured in hours, so that differences are `age_hours`); the
date-string parsing itself (a tour of `strptime`/`dateutil` formats) is
abstracted to this pre-extracted field. -/
structure RawEntry where
  link : String := ""
  title : String := ""
  summary : String := ""
  description : String := ""
  published : String := ""
  published_datetime : Option ℚ := none
deriving DecidableEq, Repr

/-- A processed news item as assembled by `process_feed_entries`. -/
structure NewsItem where
  title : String
  original_link : String
  source_name : String
  published : String
  published_datetime : Option ℚ
  feed_name : String
  summary : String
  korean_summary : String
deriving DecidableEq, Repr

/-- The dictionary `fetch_rss_feed` returns for one feed. -/
structure FeedResult where
  name : String
  url : String
  entries : List RawEntry
deriving DecidableEq, Repr

/-! ## Bounded fetcher (`fetch.py`) -/

/-- `MAX_RETRIES` from `utils/fetch.py`. -/
def MAX_RETRIES : ℕ := 3

/-- `RETRY_DELAY` (seconds) from `utils/fetch.py`. -/
def RETRY_DELAY : ℕ := 1

/-- `CACHE_DURATION` (seconds) from `utils/fetch.py`. -/
def CACHE_DURATION : ℚ := 1800

/-- Outcome of one HTTP attempt of `fetch_rss_feed`, as seen by the code:
a 200 response parsed by `feedparser` (entries plus whether feed-level
metadata was present), a non-200 status, a network/timeout error
(`aiohttp.ClientError` / `asyncio.TimeoutError`), or any other exception. -/
inductive FeedFetchOutcome where
  | ok (entries : List RawEntry) (feedInfo : Bool)
  | httpError (code : ℕ)
  | netError
  | unexpectedError
deriving DecidableEq

/-- How `fetch_rss_feed` reacts to one attempt: a 200 response with entries
(or feed metadata) succeeds; a non-200 status, a network/timeout error and an
"Empty or invalid feed" all take the retry path; any other exception breaks
out of the loop immediately. -/
inductive AttemptStep where
  | success (entries : List RawEntry)
  | retryable
  | fatal
deriving DecidableEq

/-- Classification of one attempt, mirroring the branches of the `while`
loop in `fetch_rss_feed`. -/
def classifyFeedAttempt : FeedFetchOutcome → AttemptStep
  | .ok entries feedInfo =>
    if entries.isEmpty && !feedInfo then .retryable else .success entries
  | .httpError _ => .retryable
  | .netError => .retryable
  | .unexpectedError => .fatal

/-- The retry loop of `fetch_rss_feed` (`utils/fetch.py`), for a cache miss.
`oracle n` is the outcome of the `n`-th HTTP attempt (0-based). Returns the
feed result, the total number of attempts made, and the list of backoff
delays slept (`RETRY_DELAY * retries` after the `retries`-th failure).
Called with `retries = 0`, `attempts = 0`, `delays = []`. -/
def fetch_rss_feed (oracle : ℕ → FeedFetchOutcome) (name url : String) :
    ℕ → ℕ → List ℕ → FeedResult × ℕ × List ℕ
  | retries, attempts, delays =>
    match classifyFeedAttempt (oracle attempts) with
    | .success entries => (⟨name, url, entries⟩, attempts + 1, delays)
    | .fatal => (⟨name, url, []⟩, attempts + 1, delays)
    | .retryable =>
      if retries + 1 ≤ MAX_RETRIES then
        fetch_rss_feed oracle name url (retries + 1) (attempts + 1)
          (delays ++ [RETRY_DELAY * (retries + 1)])
      else (⟨name, url, []⟩, attempts + 1, delays)
termination_by retries _ _ => MAX_RETRIES + 1 - retries
decreasing_by simp only [MAX_RETRIES] at *; omega

/-- Outcome of the single HTTP attempt of `fetch_article_content`
(`utils/parsing.py`): a non-200 status, a raised exception, or a 200 page
whose BeautifulSoup extraction strategies produced `extracted` (the text
before the final whitespace cleanup; the DOM heuristics themselves are
abstracted to this value). -/
inductive ArticleFetchOutcome where
  | httpError (code : ℕ)
  | netError
  | page (extracted : List Char)

/-- `fetch_article_content(url, session)` from `utils/parsing.py`, given the
outcome of its one `session.get`. Returns the body text and the number of
HTTP attempts the call makes (structurally one: the function has no retry
loop; failures return `""` immediately). The final cleanup is the source's
`re.sub(r'\s+', ' ', ...).strip()`, the under-50-chars rejection and the
8000-char truncation. -/
def fetch_article_content (outcome : ArticleFetchOutcome) : String × ℕ :=
  match outcome with
  | .httpError _ => ("", 1)
  | .netError => ("", 1)
  | .page extracted =>
    let cleaned := stripChars (collapseWsAux extracted.length extracted)
    if cleaned.length < 50 then ("", 1) else (⟨cleaned.take 8000⟩, 1)

/-! ## Cache store (`fetch.py`, `get_cached_response` / `cache_response`) -/

/-- The two cache tiers: the in-process `_cache`/`_cache_expiry` pair and the
file tier, each mapping a key to a payload and its absolute expiry. Keys are
`md5(url)`, modelled injectively by the URL itself; an unreadable or corrupt
cache file is modelled as an absent entry. -/
structure CacheState (α : Type) where
  mem : String → Option (α × ℚ)
  file : String → Option (α × ℚ)

/-- `get_cached_response(url)` from `utils/fetch.py`: memory tier first
(strict `expiry > now`), then the file tier; a fresh file hit is promoted
into the memory tier; an expired entry is treated as absent. Returns the
payload (if any) and the possibly-updated state. -/
def get_cached_response {α : Type} (s : CacheState α) (url : String) (now : ℚ) :
    Option α × CacheState α :=
  let fromFile : Option α × CacheState α :=
    match s.file url with
    | some (d, exp) =>
      if now < exp then
        (some d, { s with mem := fun k => if k = url then some (d, exp) else s.mem k })
      else (none, s)
    | none => (none, s)
  match s.mem url with
  | some (d, exp) => if now < exp then (some d, s) else fromFile
  | none => fromFile

/-- `cache_response(url, data)` from `utils/fetch.py`: expiry is
`now + CACHE_DURATION`; the memory tier is always updated; the file write is
best-effort (`fileWriteOk = false` models the logged, swallowed exception). -/
def cache_response {α : Type} (s : CacheState α) (url : String) (data : α)
    (now : ℚ) (fileWriteOk : Bool) : CacheState α :=
  let expiry := now + CACHE_DURATION
  { mem := fun k => if k = url then some (data, expiry) else s.mem k
    file :=
      if fileWriteOk then fun k => if k = url then some (data, expiry) else s.file k
      else s.file }

/-! ## Prioritizer (`parsing.py`, `prioritize_articles`) -/

/-- The composite score `prioritize_articles` assigns to one article:
relevance (title only) × 40, plus the recency contribution from
`age_hours = now - published_datetime` (timestamps in hours), plus 15 for a
trusted source-name substring. Articles without a parsed timestamp skip the
recency branch entirely. -/
def compositeScore (now : ℚ) (article : NewsItem) : ℚ :=
  let relevance := (get_article_relevance_score article.title none).2 * 40
  let recency : ℚ :=
    match article.published_datetime with
    | none => 0
    | some pd =>
      let age_hours := now - pd
      if age_hours < 24 then max 0 (30 - age_hours / 24 * 30)
      else if age_hours < 72 then max 0 (15 - (age_hours - 24) / 48 * 15)
      else 0
  let sourceBonus : ℚ :=
    if TRUSTED_SOURCES.any (fun t => strContains (strToLower article.source_name) t)
    then 15 else 0
  relevance + recency + sourceBonus

/-- The descending-score ordering used by
`sorted(articles, key=..., reverse=True)`. -/
def scoreGE (x y : NewsItem × ℚ) : Prop := y.2 ≤ x.2

instance : DecidableRel scoreGE := fun x y => inferInstanceAs (Decidable (y.2 ≤ x.2))

instance : IsTotal (NewsItem × ℚ) scoreGE := ⟨fun a b => le_total b.2 a.2⟩

instance : IsTrans (NewsItem × ℚ) scoreGE := ⟨fun _ _ _ h1 h2 => le_trans h2 h1⟩

/-- The score-assignment pass of `prioritize_articles`
(`article["relevance_score"] = score`). -/
def scoreArticles (now : ℚ) (articles : List NewsItem) : List (NewsItem × ℚ) :=
  articles.map (fun a => (a, compositeScore now a))

/-- The `sorted(..., reverse=True)` call: Python's sort is stable, and any
stable sort by the same key computes the same list, so insertion sort by
`scoreGE` is an exact model. -/
def sortArticles (now : ℚ) (articles : List NewsItem) : List (NewsItem × ℚ) :=
  (scoreArticles now articles).insertionSort scoreGE

/-- `prioritize_articles(articles, max_items)` from `utils/parsing.py`:
score, stable-sort descending, truncate. `now` is the wall clock
(`datetime.now(timezone.utc)`, in hours). -/
def prioritize_articles (articles : List NewsItem) (max_items : ℕ) (now : ℚ) :
    List (NewsItem × ℚ) :=
  (sortArticles now articles).take max_items

/-! ## Entry processing (`parsing.py`, `process_feed_entries`) -/

/-- The fixed placeholder `korean_summary` starts from. -/
def koreanPlaceholder : String := "요약 정보가 없습니다."

/-- The shared mutable state of one aggregation run: the accumulated items,
the `title_fingerprints` set and the `processed_links` set (kept as lists in
insertion order; only membership is ever queried). -/
structure DedupState where
  items : List NewsItem
  fingerprints : List String
  links : List String
deriving DecidableEq

/-- The per-feed `for entry in ...` loop body of `process_feed_entries`,
with the article fetch and the translation service supplied as oracles
(`fetchO url` is the outcome of `fetch_article_content`'s request for `url`;
`transl` is `translate_and_summarize`). `items_from_feed` is the per-feed
counter; the loop stops as soon as it reaches `cap`. -/
def processFeedLoop (fetchO : String → ArticleFetchOutcome) (transl : String → String)
    (feed_name : String) (cap : ℕ) :
    List RawEntry → DedupState → ℕ → DedupState
  | [], st, _ => st
  | entry :: rest, st, items_from_feed =>
    if cap ≤ items_from_feed then st
    else
      let original_link := entry.link
      if original_link = "" ∨ original_link ∈ st.links then
        processFeedLoop fetchO transl feed_name cap rest st items_from_feed
      else
        let title := clean_title entry.title
        if title = "" ∨ title.length < 10 then
          processFeedLoop fetchO transl feed_name cap rest st items_from_feed
        else
          let fp := title_fingerprint title
          if fp ∈ st.fingerprints then
            processFeedLoop fetchO transl feed_name cap rest st items_from_feed
          else
            let summary := if entry.summary ≠ "" then entry.summary else entry.description
            if ¬ (is_relevant_article title (some summary) = true) then
              processFeedLoop fetchO transl feed_name cap rest st items_from_feed
            else
              let source_display := get_source_display_name original_link
              let fetched := (fetch_article_content (fetchO original_link)).1
              let article_content :=
                if fetched = "" ∧ summary ≠ "" then summary else fetched
              let korean_summary :=
                if article_content ≠ "" then transl article_content else koreanPlaceholder
              let item : NewsItem :=
                { title := title
                  original_link := original_link
                  source_name := source_display
                  published := entry.published
                  published_datetime := entry.published_datetime
                  feed_name := feed_name
                  summary := if summary ≠ "" then ⟨summary.data.take 500⟩ else ""
                  korean_summary := korean_summary }
              processFeedLoop fetchO transl feed_name cap rest
                ⟨st.items ++ [item], st.fingerprints ++ [fp], st.links ++ [original_link]⟩
                (items_from_feed + 1)

/-- `process_feed_entries(feed_results, max_items_per_feed, total_max_items)`
from `utils/parsing.py`. A feed result is `Except.error e` when
`asyncio.gather` delivered an exception for that feed; those are filtered
out first. Each surviving feed is processed in document order against the
shared dedup state, then the aggregate is prioritized and truncated. -/
def process_feed_entries (fetchO : String → ArticleFetchOutcome)
    (transl : String → String) (now : ℚ)
    (feed_results : List (Except String FeedResult))
    (max_items_per_feed total_max_items : ℕ) : List (NewsItem × ℚ) :=
  let valid := feed_results.filterMap (fun r =>
    match r with
    | .ok fr => some fr
    | .error _ => none)
  let final := valid.foldl
    (fun st fr => processFeedLoop fetchO transl fr.name max_items_per_feed fr.entries st 0)
    ⟨[], [], []⟩
  prioritize_articles final.items total_max_items now

/-! ## Theorems -/

/-- Number of distinct AI keywords found as case-insensitive substrings of
the title (the claims' `t`). -/
def titleMatches (title : String) : ℕ :=
  (AI_KEYWORDS.filter (fun kw => strContains (strToLower title) (strToLower kw))).length

/-- Number of distinct AI keywords found in the body (the claims' `c`). -/
def bodyMatches (c : String) : ℕ :=
  (AI_KEYWORDS.filter (fun kw => strContains (strToLower c) (strToLower kw))).length

/-- The claims' title contribution `min(0.6, t × 0.2)`. -/
def titleContribution (title : String) : ℚ :=
  min ((6:ℚ)/10) ((titleMatches title : ℚ) * (2/10))

/-- The claims' body contribution `b`: `min(0.4, c × 0.1)` when a body is
supplied and longer than 100 characters, else `0`. -/
def bodyContribution : Option String → ℚ
  | some c => if 100 < c.length then min ((4:ℚ)/10) ((bodyMatches c : ℚ) * (1/10)) else 0
  | none => 0

/-- The body part of the scorer exactly as guarded in the source
(`if content and len(content) > 100` and `if content_keywords`). -/
def bodyGuard : Option String → ℚ
  | some c =>
    if c ≠ "" ∧ 100 < c.length then
      if (bodyMatches c) ≠ 0 then min ((4:ℚ)/10) ((bodyMatches c : ℚ) * (1/10)) else 0
    else 0
  | none => 0

theorem length_pos_ne_empty {c : String} (h : 100 < c.length) : c ≠ "" := by
  intro hc
  subst hc
  simp [String.length] at h

theorem titleGuard_eq (n : ℕ) :
    (if n ≠ 0 then min ((6:ℚ)/10) ((n : ℚ) * (2/10)) else 0)
      = min ((6:ℚ)/10) ((n:ℚ) * (2/10)) := by
  split_ifs with h
  · rfl
  · push_neg at h
    subst h
    norm_num

theorem bodyGuard_eq (content : Option String) :
    bodyGuard content = bodyContribution content := by
  cases content with
  | none => rfl
  | some c =>
    simp only [bodyGuard, bodyContribution]
    by_cases hlen : 100 < c.length
    · rw [if_pos ⟨length_pos_ne_empty hlen, hlen⟩, if_pos hlen]
      split_ifs with h
      · rfl
      · push_neg at h
        rw [h]
        norm_num
    · rw [if_neg (by tauto), if_neg hlen]

/-- Evaluation of the scorer on a non-excluded, non-empty title: the guards
`if title_keywords:` / `if content_keywords:` collapse into the `min` form. -/
theorem score_eval (title : String) (content : Option String)
    (hne : title ≠ "")
    (hexcl : (EXCLUDE_KEYWORDS.any fun kw =>
        strContains (strToLower title) (strToLower kw)) = false) :
    get_article_relevance_score title content =
      (decide ((1:ℚ)/10 < titleContribution title + bodyContribution content),
       min 1 (titleContribution title + bodyContribution content)) := by
  have step : get_article_relevance_score title content =
      (decide ((1:ℚ)/10 <
          (if (titleMatches title) ≠ 0
            then min ((6:ℚ)/10) ((titleMatches title : ℚ) * (2/10)) else 0)
          + bodyGuard content),
       min 1 ((if (titleMatches title) ≠ 0
            then min ((6:ℚ)/10) ((titleMatches title : ℚ) * (2/10)) else 0)
          + bodyGuard content)) := by
    simp only [get_article_relevance_score, bodyGuard, titleMatches, bodyMatches,
      if_neg hne, hexcl, Bool.false_eq_true, if_false]
  rw [step, titleGuard_eq, bodyGuard_eq]
  rfl

/-- **C1**: a title containing any exclusion keyword (as a case-insensitive
substring) makes the scorer return `(false, 0.0)` regardless of the body. -/
theorem exclusion_is_absolute (title : String) (content : Option String)
    (h : ∃ kw ∈ EXCLUDE_KEYWORDS,
        strContains (strToLower title) (strToLower kw) = true) :
    get_article_relevance_score title content = (false, 0) := by
  have hany : (EXCLUDE_KEYWORDS.any fun kw =>
      strContains (strToLower title) (strToLower kw)) = true :=
    List.any_eq_true.mpr (by simpa using h)
  by_cases h1 : title = ""
  · simp [get_article_relevance_score, h1]
  · simp [get_article_relevance_score, h1, hany]

/-- Witness for C1 at the spec's scenario title, which contains the
exclusion keyword "webinar". -/
theorem exclusion_is_absolute_witness :
    (∃ kw ∈ EXCLUDE_KEYWORDS,
        strContains (strToLower "Webinar: Register now for our AI summit")
          (strToLower kw) = true)
    ∧ get_article_relevance_score "Webinar: Register now for our AI summit" none
        = (false, 0) :=
  ⟨by decide, exclusion_is_absolute _ none (by decide)⟩

/-- **C2**: on a non-empty, non-excluded title the score is
`min(1, min(0.6, t×0.2) + b)` with `b = min(0.4, c×0.1)` for a body longer
than 100 chars (else 0), and inclusion holds iff the summed score
exceeds 0.1. -/
theorem scorer_formula (title : String) (content : Option String)
    (hne : title ≠ "")
    (hexcl : ∀ kw ∈ EXCLUDE_KEYWORDS,
        strContains (strToLower title) (strToLower kw) = false) :
    (get_article_relevance_score title content).2
      = min 1 (titleContribution title + bodyContribution content)
    ∧ ((get_article_relevance_score title content).1 = true
      ↔ (1:ℚ)/10 < titleContribution title + bodyContribution content) := by
  have hany : (EXCLUDE_KEYWORDS.any fun kw =>
      strContains (strToLower title) (strToLower kw)) = false :=
    List.any_eq_false.mpr (by simpa using hexcl)
  rw [score_eval title content hne hany]
  exact ⟨rfl, by simp⟩

/-- Witness for C2: a title with one AI keyword and no body. -/
theorem scorer_formula_witness :
    ("Transformer models explained" ≠ "")
    ∧ (∀ kw ∈ EXCLUDE_KEYWORDS,
        strContains (strToLower "Transformer models explained") (strToLower kw) = false)
    ∧ (get_article_relevance_score "Transformer models explained" none).2
        = min 1 (titleContribution "Transformer models explained"
            + bodyContribution none) :=
  ⟨by decide, by decide,
    (scorer_formula "Transformer models explained" none (by decide) (by decide)).1⟩

/-- **C7**: after `put(url, payload)` an immediate `get(url)` returns the
payload; both tiers are updated (the durable tier when its write succeeds,
and a failed durable write leaves the durable tier untouched while the
lookup still succeeds from memory); once the TTL has elapsed, `get(url)`
reports the entry absent. -/
theorem cache_roundtrip {α : Type} (s : CacheState α) (url : String) (data : α)
    (now : ℚ) (ok : Bool) :
    (get_cached_response (cache_response s url data now ok) url now).1 = some data
    ∧ (cache_response s url data now ok).mem url = some (data, now + CACHE_DURATION)
    ∧ (ok = true →
        (cache_response s url data now ok).file url = some (data, now + CACHE_DURATION))
    ∧ (ok = false → (cache_response s url data now ok).file = s.file
        ∧ (get_cached_response (cache_response s url data now ok) url now).1 = some data)
    ∧ (ok = true → ∀ now' : ℚ, now + CACHE_DURATION ≤ now' →
        (get_cached_response (cache_response s url data now ok) url now').1 = none) := by
  have hfresh : now < now + CACHE_DURATION := by
    simp [CACHE_DURATION]
  have hget : (get_cached_response (cache_response s url data now ok) url now).1
      = some data := by
    simp [get_cached_response, cache_response, hfresh]
  refine ⟨hget, by simp [cache_response], ?_, ?_, ?_⟩
  · intro hok
    simp [cache_response, hok]
  · intro hok
    exact ⟨by simp [cache_response, hok], hget⟩
  · intro hok now' hterm
    have hstale : ¬ now' < now + CACHE_DURATION := not_lt.mpr hterm
    simp [get_cached_response, cache_response, hok, hstale]

/-- Witness for C7: an empty cache, a write at time 0, a hit at time 0 and a
miss at time 1800 (= the default TTL). -/
theorem cache_roundtrip_witness :
    (get_cached_response
        (cache_response ⟨fun _ => none, fun _ => none⟩ "u" (0 : ℕ) 0 true) "u" 0).1
      = some 0
    ∧ (get_cached_response
        (cache_response ⟨fun _ => none, fun _ => none⟩ "u" (0 : ℕ) 0 true) "u" 1800).1
      = none :=
  ⟨(cache_roundtrip ⟨fun _ => none, fun _ => none⟩ "u" 0 0 true).1,
   (cache_roundtrip ⟨fun _ => none, fun _ => none⟩ "u" 0 0 true).2.2.2.2 rfl 1800
     (by norm_num [CACHE_DURATION])⟩

/-- **C6 (counterexample)**: the pipeline's article-page fetch,
`fetch_article_content` in `utils/parsing.py`, performs exactly one HTTP
attempt — on a 503 it returns the empty body immediately instead of retrying
up to 3 additional times (4 attempts) as the claim states for every fetch. -/
theorem article_fetch_single_attempt_cex :
    fetch_article_content (.httpError 503) = ("", 1) ∧ (1 : ℕ) ≠ 4 :=
  ⟨rfl, by decide⟩

/-- **C6 (amended)**: feed-document fetches retry up to 3 additional times
with backoff delays `attempt_index × RETRY_DELAY`, and a feed failing all 4
attempts yields an empty entries list; an article-page fetch makes a single
attempt; a feed result with an empty entries list contributes nothing to the
run, which still returns the items of the other feeds. -/
theorem fetch_retry_policy :
    (∀ (oracle : ℕ → FeedFetchOutcome) (name url : String),
        (∀ n, classifyFeedAttempt (oracle n) = .retryable) →
        fetch_rss_feed oracle name url 0 0 []
          = (⟨name, url, []⟩, 4, [RETRY_DELAY * 1, RETRY_DELAY * 2, RETRY_DELAY * 3]))
    ∧ (∀ o : ArticleFetchOutcome, (fetch_article_content o).2 = 1)
    ∧ (∀ fetchO transl (now : ℚ) (xs ys : List (Except String FeedResult))
          (name url : String) (cap tot : ℕ),
        process_feed_entries fetchO transl now (xs ++ Except.ok ⟨name, url, []⟩ :: ys) cap tot
          = process_feed_entries fetchO transl now (xs ++ ys) cap tot) := by
  refine ⟨?_, ?_, ?_⟩
  · intro oracle name url h
    rw [fetch_rss_feed, h 0]
    norm_num [MAX_RETRIES]
    rw [fetch_rss_feed, h 1]
    norm_num [MAX_RETRIES]
    rw [fetch_rss_feed, h 2]
    norm_num [MAX_RETRIES]
    rw [fetch_rss_feed, h 3]
    norm_num [MAX_RETRIES]
  · intro o
    cases o with
    | httpError code => rfl
    | netError => rfl
    | page extracted =>
      simp only [fetch_article_content]
      split <;> rfl
  · intro fetchO transl now xs ys name url cap tot
    simp [process_feed_entries, List.filterMap_append, List.foldl_append, processFeedLoop]

/-- Witness for C6 (amended), at an oracle answering HTTP 503 forever. -/
theorem fetch_retry_policy_witness :
    fetch_rss_feed (fun _ => .httpError 503) "Feed" "https://u.example/feed" 0 0 []
      = (⟨"Feed", "https://u.example/feed", []⟩, 4,
         [RETRY_DELAY * 1, RETRY_DELAY * 2, RETRY_DELAY * 3]) :=
  fetch_retry_policy.1 (fun _ => .httpError 503) "Feed" "https://u.example/feed"
    (fun _ => rfl)

theorem filterMap_ok_filter_isOk (rs : List (Except String FeedResult)) :
    ((rs.filter (fun r => r.isOk)).filterMap (fun r =>
        match r with
        | .ok fr => some fr
        | .error _ => none))
      = rs.filterMap (fun r =>
        match r with
        | .ok fr => some fr
        | .error _ => none) := by
  induction rs with
  | nil => rfl
  | cons r rest ih =>
    cases r with
    | ok fr => simpa [List.filter_cons, Except.isOk, Except.toBool] using ih
    | error e => simpa [List.filter_cons, Except.isOk, Except.toBool] using ih

/-- **C5**: per-source errors are invisible to the aggregate (the run over
any result list equals the run over its successful results only); per-article
fetch errors degrade to an empty body; and a run in which every source
failed completes with zero items. -/
theorem error_containment :
    (∀ fetchO transl (now : ℚ) (rs : List (Except String FeedResult)) (cap tot : ℕ),
        process_feed_entries fetchO transl now rs cap tot
          = process_feed_entries fetchO transl now (rs.filter (fun r => r.isOk)) cap tot)
    ∧ (∀ (code : ℕ), fetch_article_content (.httpError code) = ("", 1)
        ∧ fetch_article_content .netError = ("", 1))
    ∧ (∀ fetchO transl (now : ℚ) (rs : List (Except String FeedResult)) (cap tot : ℕ),
        (∀ r ∈ rs, ∃ e, r = .error e) →
        process_feed_entries fetchO transl now rs cap tot = []) := by
  refine ⟨?_, fun _ => ⟨rfl, rfl⟩, ?_⟩
  · intro fetchO transl now rs cap tot
    simp only [process_feed_entries, filterMap_ok_filter_isOk]
  · intro fetchO transl now rs cap tot h
    have hnil : rs.filterMap (fun r =>
        match r with
        | .ok fr => some fr
        | .error _ => none) = [] := by
      induction rs with
      | nil => rfl
      | cons r rest ih =>
        obtain ⟨e, rfl⟩ := h r (List.mem_cons_self r rest)
        simpa using ih (fun r hr => h r (List.mem_cons_of_mem _ hr))
    simp [process_feed_entries, hnil, prioritize_articles, sortArticles, scoreArticles,
      List.insertionSort]

/-- Witness for C5: a run whose only source failed returns zero items. -/
theorem error_containment_witness :
    process_feed_entries (fun _ => .netError) (fun s => s) 0
        [Except.error "boom"] 5 30 = [] :=
  error_containment.2.2 (fun _ => .netError) (fun s => s) 0 [Except.error "boom"] 5 30
    (by
      intro r hr
      simp only [List.mem_singleton] at hr
      exact ⟨"boom", hr⟩)

theorem filter_orderedInsert_score (x : NewsItem × ℚ) (l : List (NewsItem × ℚ)) (s : ℚ) :
    (l.orderedInsert scoreGE x).filter (fun y => decide (y.2 = s))
      = if x.2 = s then x :: l.filter (fun y => decide (y.2 = s))
        else l.filter (fun y => decide (y.2 = s)) := by
  induction l with
  | nil =>
    simp only [List.orderedInsert, List.filter]
    split_ifs with h <;> simp [h]
  | cons b t ih =>
    simp only [List.orderedInsert]
    by_cases hxb : scoreGE x b
    · rw [if_pos hxb]
      by_cases hxs : x.2 = s <;> simp [List.filter_cons, hxs]
    · rw [if_neg hxb]
      have hbx : x.2 < b.2 := not_le.mp hxb
      by_cases hxs : x.2 = s
      · have hbs : ¬ (b.2 = s) := by
          intro hb
          exact absurd (hb.trans hxs.symm) (ne_of_gt hbx)
        simp [List.filter_cons, hxs, hbs, ih]
      · simp [List.filter_cons, hxs, ih]

theorem filter_insertionSort_score (l : List (NewsItem × ℚ)) (s : ℚ) :
    (l.insertionSort scoreGE).filter (fun y => decide (y.2 = s))
      = l.filter (fun y => decide (y.2 = s)) := by
  induction l with
  | nil => rfl
  | cons a t ih =>
    rw [List.insertionSort, filter_orderedInsert_score]
    by_cases h : a.2 = s
    · rw [if_pos h, ih]
      simp [List.filter_cons, h]
    · rw [if_neg h, ih]
      simp [List.filter_cons, h]

/-- **C3**: the prioritizer returns at most `limit` items, sorted by
non-increasing composite score; every output score is the composite score of
its item; the sort is stable (for each score value, the items carrying it
appear in the same order as before sorting); and an item without a parsed
publish timestamp gets relevance and source bonus only (zero recency). -/
theorem prioritizer_spec (articles : List NewsItem) (limit : ℕ) (now : ℚ) :
    (prioritize_articles articles limit now).length ≤ limit
    ∧ (prioritize_articles articles limit now).Pairwise (fun x y => y.2 ≤ x.2)
    ∧ (∀ x ∈ prioritize_articles articles limit now, x.2 = compositeScore now x.1)
    ∧ (∀ s : ℚ, (sortArticles now articles).filter (fun y => decide (y.2 = s))
          = (scoreArticles now articles).filter (fun y => decide (y.2 = s)))
    ∧ (∀ a : NewsItem, a.published_datetime = none →
        compositeScore now a
          = (get_article_relevance_score a.title none).2 * 40
            + (if TRUSTED_SOURCES.any (fun t =>
                  strContains (strToLower a.source_name) t) then 15 else 0)) := by
  refine ⟨?_, ?_, ?_, ?_, ?_⟩
  · rw [prioritize_articles, List.length_take]
    exact min_le_left _ _
  · have hs : (sortArticles now articles).Pairwise scoreGE :=
      List.sorted_insertionSort scoreGE (scoreArticles now articles)
    exact hs.sublist (List.take_sublist _ _)
  · intro x hx
    have hx₁ : x ∈ sortArticles now articles := (List.take_sublist _ _).subset hx
    have hx₂ : x ∈ scoreArticles now articles :=
      (List.mem_insertionSort scoreGE).1 hx₁
    obtain ⟨a, _, rfl⟩ := List.mem_map.1 hx₂
    rfl
  · intro s
    exact filter_insertionSort_score _ s
  · intro a h
    simp [compositeScore, h]

/-- The dedup invariant maintained by the entry loop: every accumulated item
is registered in both seen-sets and has a non-empty link, and the
accumulated items are pairwise distinct in link and in fingerprint. -/
def goodState (st : DedupState) : Prop :=
  (∀ i ∈ st.items,
      i.original_link ∈ st.links
      ∧ title_fingerprint i.title ∈ st.fingerprints
      ∧ i.original_link ≠ "")
  ∧ st.items.Pairwise (fun a b => a.original_link ≠ b.original_link)
  ∧ st.items.Pairwise (fun a b => title_fingerprint a.title ≠ title_fingerprint b.title)

theorem goodState_extend (st : DedupState) (item : NewsItem)
    (h : goodState st)
    (hlink_ne : item.original_link ≠ "")
    (hlink_nin : item.original_link ∉ st.links)
    (hfp_nin : title_fingerprint item.title ∉ st.fingerprints) :
    goodState ⟨st.items ++ [item], st.fingerprints ++ [title_fingerprint item.title],
               st.links ++ [item.original_link]⟩ := by
  obtain ⟨hall, hplinks, hpfps⟩ := h
  refine ⟨?_, ?_, ?_⟩
  · intro i hi
    rcases List.mem_append.1 hi with hi | hi
    · obtain ⟨hl, hf, hn⟩ := hall i hi
      exact ⟨List.mem_append_left _ hl, List.mem_append_left _ hf, hn⟩
    · rw [List.mem_singleton] at hi
      subst hi
      exact ⟨List.mem_append_right _ (List.mem_singleton.2 rfl),
        List.mem_append_right _ (List.mem_singleton.2 rfl), hlink_ne⟩
  · rw [List.pairwise_append]
    refine ⟨hplinks, List.pairwise_singleton _ _, ?_⟩
    intro a ha b hb
    rw [List.mem_singleton] at hb
    subst hb
    intro heq
    exact hlink_nin (heq ▸ (hall a ha).1)
  · rw [List.pairwise_append]
    refine ⟨hpfps, List.pairwise_singleton _ _, ?_⟩
    intro a ha b hb
    rw [List.mem_singleton] at hb
    subst hb
    intro heq
    exact hfp_nin (heq ▸ (hall a ha).2.1)

theorem processFeedLoop_good (fetchO : String → ArticleFetchOutcome)
    (transl : String → String) (fn : String) (cap : ℕ) :
    ∀ (entries : List RawEntry) (st : DedupState) (k : ℕ),
      goodState st → goodState (processFeedLoop fetchO transl fn cap entries st k) := by
  intro entries
  induction entries with
  | nil =>
    intro st k h
    simpa [processFeedLoop] using h
  | cons e rest ih =>
    intro st k h
    simp only [processFeedLoop]
    split_ifs with h1 h2 h3 h4 <;>
      first
      | exact h
      | exact ih st k h
      | (push_neg at h2
         exact ih _ (k + 1) (goodState_extend st _ h h2.1 h2.2 h4))

theorem foldl_good (fetchO : String → ArticleFetchOutcome) (transl : String → String)
    (cap : ℕ) :
    ∀ (feeds : List FeedResult) (st : DedupState), goodState st →
      goodState (feeds.foldl
        (fun st fr => processFeedLoop fetchO transl fr.name cap fr.entries st 0) st) := by
  intro feeds
  induction feeds with
  | nil =>
    intro st h
    exact h
  | cons fr rest ih =>
    intro st h
    exact ih _ (processFeedLoop_good fetchO transl fr.name cap fr.entries st 0 h)

/-- The accumulated item list of one run, before prioritization. -/
def runItems (fetchO : String → ArticleFetchOutcome) (transl : String → String)
    (rs : List (Except String FeedResult)) (cap : ℕ) : List NewsItem :=
  ((rs.filterMap (fun r =>
      match r with
      | .ok fr => some fr
      | .error _ => none)).foldl
    (fun st fr => processFeedLoop fetchO transl fr.name cap fr.entries st 0)
    ⟨[], [], []⟩).items

theorem process_eq_prioritize (fetchO : String → ArticleFetchOutcome)
    (transl : String → String) (now : ℚ) (rs : List (Except String FeedResult))
    (cap tot : ℕ) :
    process_feed_entries fetchO transl now rs cap tot
      = prioritize_articles (runItems fetchO transl rs cap) tot now := rfl

/-- The accumulated items of a run satisfy the dedup invariant. -/
theorem run_items_good (fetchO : String → ArticleFetchOutcome)
    (transl : String → String) (rs : List (Except String FeedResult)) (cap : ℕ) :
    (∀ i ∈ runItems fetchO transl rs cap, i.original_link ≠ "")
    ∧ (runItems fetchO transl rs cap).Pairwise
        (fun a b => a.original_link ≠ b.original_link)
    ∧ (runItems fetchO transl rs cap).Pairwise
        (fun a b => title_fingerprint a.title ≠ title_fingerprint b.title) := by
  have h := foldl_good fetchO transl cap
    (rs.filterMap (fun r =>
      match r with
      | .ok fr => some fr
      | .error _ => none))
    ⟨[], [], []⟩ ⟨by simp, List.Pairwise.nil, List.Pairwise.nil⟩
  exact ⟨fun i hi => (h.1 i hi).2.2, h.2.1, h.2.2⟩

/-- Transfer of a pairwise property of the accumulated items, through the
scoring map, the (permuting) sort and the truncation, to the run's output. -/
theorem pairwise_process (fetchO : String → ArticleFetchOutcome)
    (transl : String → String) (now : ℚ) (rs : List (Except String FeedResult))
    (cap tot : ℕ) (R : NewsItem → NewsItem → Prop) (hsymm : Symmetric R)
    (hitems : (runItems fetchO transl rs cap).Pairwise R) :
    (process_feed_entries fetchO transl now rs cap tot).Pairwise
      (fun x y => R x.1 y.1) := by
  have hscored : ((scoreArticles now (runItems fetchO transl rs cap)).Pairwise
      (fun x y : NewsItem × ℚ => R x.1 y.1)) :=
    List.pairwise_map.2 hitems
  have hsorted : ((sortArticles now (runItems fetchO transl rs cap)).Pairwise
      (fun x y : NewsItem × ℚ => R x.1 y.1)) :=
    (List.Perm.pairwise_iff (fun hxy => hsymm hxy)
      (List.perm_insertionSort scoreGE _)).2 hscored
  rw [process_eq_prioritize]
  exact hsorted.sublist (List.take_sublist _ _)

/-- Membership in the run's output comes from the accumulated items. -/
theorem mem_process (fetchO : String → ArticleFetchOutcome)
    (transl : String → String) (now : ℚ) (rs : List (Except String FeedResult))
    (cap tot : ℕ) (x : NewsItem × ℚ)
    (hx : x ∈ process_feed_entries fetchO transl now rs cap tot) :
    x.1 ∈ runItems fetchO transl rs cap := by
  rw [process_eq_prioritize] at hx
  have hx₁ : x ∈ sortArticles now (runItems fetchO transl rs cap) :=
    (List.take_sublist _ _).subset hx
  have hx₂ : x ∈ scoreArticles now (runItems fetchO transl rs cap) :=
    (List.mem_insertionSort scoreGE).1 hx₁
  obtain ⟨a, ha, rfl⟩ := List.mem_map.1 hx₂
  exact ha

/-! ### The dedup scenario of the spec -/

/-- First scenario entry. -/
def entryA : RawEntry :=
  { link := "https://site-a.example/x1", title := "OpenAI releases new model" }

/-- Second scenario entry: same title as `entryA` up to letter case. -/
def entryB : RawEntry :=
  { link := "https://site-b.example/x2", title := "Openai Releases New Model" }

/-- Scenario feed containing `entryA`. -/
def feedA : FeedResult := ⟨"Feed A", "https://site-a.example/feed", [entryA]⟩

/-- Scenario feed containing `entryB`. -/
def feedB : FeedResult := ⟨"Feed B", "https://site-b.example/feed", [entryB]⟩

/-- Scenario article fetch: every page request fails. -/
def scenarioFetch : String → ArticleFetchOutcome := fun _ => .netError

/-- Scenario translation service (never reached in the scenario). -/
def scenarioTransl : String → String := fun _ => ""

/-- The single item the scenario run produces. -/
def itemA : NewsItem :=
  { title := "OpenAI releases new model"
    original_link := "https://site-a.example/x1"
    source_name := "Site-a"
    published := ""
    published_datetime := none
    feed_name := "Feed A"
    summary := ""
    korean_summary := koreanPlaceholder }

theorem relevance_A : is_relevant_article "OpenAI releases new model" (some "") = true := by
  have hx : (EXCLUDE_KEYWORDS.any fun kw =>
      strContains (strToLower "OpenAI releases new model") (strToLower kw)) = false := by
    decide
  have ht : titleMatches "OpenAI releases new model" = 2 := by decide
  have hb : bodyContribution (some "") = 0 := by
    rw [bodyContribution, if_neg (by decide)]
  rw [is_relevant_article, score_eval "OpenAI releases new model" (some "") (by decide) hx]
  simp only [titleContribution, ht, hb]
  norm_num

theorem step1 : processFeedLoop scenarioFetch scenarioTransl "Feed A" 5 [entryA] ⟨[], [], []⟩ 0
    = ⟨[itemA], [title_fingerprint "OpenAI releases new model"], ["https://site-a.example/x1"]⟩ := by
  have hclean : clean_title "OpenAI releases new model" = "OpenAI releases new model" := by decide
  simp +decide [processFeedLoop, entryA, hclean, relevance_A, scenarioFetch, scenarioTransl,
    fetch_article_content, itemA]

theorem step2 : processFeedLoop scenarioFetch scenarioTransl "Feed B" 5 [entryB]
    ⟨[itemA], [title_fingerprint "OpenAI releases new model"], ["https://site-a.example/x1"]⟩ 0
    = ⟨[itemA], [title_fingerprint "OpenAI releases new model"], ["https://site-a.example/x1"]⟩ := by
  have hclean : clean_title "Openai Releases New Model" = "Openai Releases New Model" := by decide
  simp +decide [processFeedLoop, entryB, hclean]

/-- The scenario run: two feeds whose entries' titles differ only in letter
case produce a single item, the second entry being dropped on its duplicate
fingerprint (it is never scored or fetched). -/
theorem scenario_run : process_feed_entries scenarioFetch scenarioTransl 0
    [Except.ok feedA, Except.ok feedB] 5 30 = [(itemA, compositeScore 0 itemA)] := by
  rw [process_eq_prioritize]
  have hitems : runItems scenarioFetch scenarioTransl [Except.ok feedA, Except.ok feedB] 5
      = [itemA] := by
    simp only [runItems, List.filterMap_cons, List.filterMap_nil, List.foldl_cons,
      List.foldl_nil, feedA, feedB]
    rw [step1, step2]
  rw [hitems]
  simp [prioritize_articles, sortArticles, scoreArticles, List.insertionSort,
    List.orderedInsert, List.take]

/-- **C4**: in one run no two output items share `original_link` and no two
share a title fingerprint; and in the spec's scenario the case-variant
duplicate "Openai Releases New Model" is dropped, leaving exactly
"OpenAI releases new model". -/
theorem dedup_invariant :
    (∀ (fetchO : String → ArticleFetchOutcome) (transl : String → String) (now : ℚ)
        (rs : List (Except String FeedResult)) (cap tot : ℕ),
        (process_feed_entries fetchO transl now rs cap tot).Pairwise
          (fun x y => x.1.original_link ≠ y.1.original_link)
        ∧ (process_feed_entries fetchO transl now rs cap tot).Pairwise
          (fun x y => title_fingerprint x.1.title ≠ title_fingerprint y.1.title))
    ∧ (process_feed_entries scenarioFetch scenarioTransl 0
          [Except.ok feedA, Except.ok feedB] 5 30).map (fun x => x.1.title)
        = ["OpenAI releases new model"] := by
  constructor
  · intro fetchO transl now rs cap tot
    obtain ⟨-, hlinks, hfps⟩ := run_items_good fetchO transl rs cap
    exact ⟨pairwise_process fetchO transl now rs cap tot _ (fun _ _ h => Ne.symm h) hlinks,
           pairwise_process fetchO transl now rs cap tot _ (fun _ _ h => Ne.symm h) hfps⟩
  · rw [scenario_run]
    rfl

/-- Returning `st` unchanged once the per-feed counter has reached the cap
(the `break` at the top of the loop body). -/
theorem loop_capped (fetchO : String → ArticleFetchOutcome) (transl : String → String)
    (fn : String) (cap : ℕ) (entries : List RawEntry) (st : DedupState) (k : ℕ)
    (h : cap ≤ k) :
    processFeedLoop fetchO transl fn cap entries st k = st := by
  cases entries with
  | nil => rfl
  | cons e rest =>
    simp only [processFeedLoop]
    rw [if_pos h]

/-- **C10**: every output item has a non-empty `original_link`, because an
entry with a missing/empty link is skipped before cleaning, scoring or
fetching (the loop on it equals the loop on the remaining entries). -/
theorem links_nonempty :
    (∀ (fetchO : String → ArticleFetchOutcome) (transl : String → String) (now : ℚ)
        (rs : List (Except String FeedResult)) (cap tot : ℕ) (x : NewsItem × ℚ),
        x ∈ process_feed_entries fetchO transl now rs cap tot →
        x.1.original_link ≠ "")
    ∧ (∀ (fetchO : String → ArticleFetchOutcome) (transl : String → String)
        (fn : String) (cap : ℕ) (e : RawEntry) (rest : List RawEntry)
        (st : DedupState) (k : ℕ),
        e.link = "" →
        processFeedLoop fetchO transl fn cap (e :: rest) st k
          = processFeedLoop fetchO transl fn cap rest st k) := by
  constructor
  · intro fetchO transl now rs cap tot x hx
    exact (run_items_good fetchO transl rs cap).1 x.1
      (mem_process fetchO transl now rs cap tot x hx)
  · intro fetchO transl fn cap e rest st k he
    by_cases hk : cap ≤ k
    · rw [loop_capped fetchO transl fn cap _ st k hk,
        loop_capped fetchO transl fn cap _ st k hk]
    · simp only [processFeedLoop]
      rw [if_neg hk, if_pos (Or.inl he)]

/-- Witness for C10 at the scenario run's single output item. -/
theorem links_nonempty_witness :
    ((itemA, compositeScore 0 itemA) ∈ process_feed_entries scenarioFetch scenarioTransl 0
        [Except.ok feedA, Except.ok feedB] 5 30)
    ∧ itemA.original_link ≠ "" :=
  ⟨by rw [scenario_run]; exact List.mem_singleton.2 rfl,
   links_nonempty.1 scenarioFetch scenarioTransl 0 _ 5 30 (itemA, compositeScore 0 itemA)
     (by rw [scenario_run]; exact List.mem_singleton.2 rfl)⟩

theorem exists_extend {l base : List NewsItem} {item : NewsItem} {fn : String}
    {cap k : ℕ}
    (h : ∃ new, l = (base ++ [item]) ++ new
        ∧ (∀ i ∈ new, i.feed_name = fn) ∧ new.length ≤ cap - (k + 1))
    (hname : item.feed_name = fn) (hk : ¬ cap ≤ k) :
    ∃ new, l = base ++ new
        ∧ (∀ i ∈ new, i.feed_name = fn) ∧ new.length ≤ cap - k := by
  obtain ⟨new, heq, hnames, hlen⟩ := h
  refine ⟨item :: new, by rw [heq]; simp, ?_, ?_⟩
  · intro i hi
    rcases List.mem_cons.1 hi with rfl | hi
    · exact hname
    · exact hnames i hi
  · simp only [List.length_cons]
    omega

set_option maxHeartbeats 1600000 in
/-- The per-feed loop appends a block of at most `cap - k` items, all tagged
with the feed's name. -/
theorem processFeedLoop_items (fetchO : String → ArticleFetchOutcome)
    (transl : String → String) (fn : String) (cap : ℕ) :
    ∀ (entries : List RawEntry) (st : DedupState) (k : ℕ),
      ∃ new : List NewsItem,
        (processFeedLoop fetchO transl fn cap entries st k).items = st.items ++ new
        ∧ (∀ i ∈ new, i.feed_name = fn)
        ∧ new.length ≤ cap - k := by
  intro entries
  induction entries with
  | nil =>
    intro st k
    exact ⟨[], by simp [processFeedLoop], by simp, by simp⟩
  | cons e rest ih =>
    intro st k
    simp only [processFeedLoop]
    split_ifs with h1 h2 h3 h4 <;>
      first
      | exact ih st k
      | exact exists_extend (ih _ (k + 1)) rfl h1
      | exact ⟨[], by simp, by simp, by simp⟩

theorem foldl_countP (fetchO : String → ArticleFetchOutcome)
    (transl : String → String) (cap : ℕ) (n : String) :
    ∀ (feeds : List FeedResult) (st : DedupState),
      ((feeds.foldl
          (fun st fr => processFeedLoop fetchO transl fr.name cap fr.entries st 0)
          st).items.countP (fun i => i.feed_name == n))
        ≤ st.items.countP (fun i => i.feed_name == n)
          + (feeds.countP (fun fr => fr.name == n)) * cap := by
  intro feeds
  induction feeds with
  | nil =>
    intro st
    simp
  | cons fr rest ih =>
    intro st
    have hstep : ((processFeedLoop fetchO transl fr.name cap fr.entries st 0).items.countP
        (fun i => i.feed_name == n))
        ≤ st.items.countP (fun i => i.feed_name == n)
          + (if fr.name == n then cap else 0) := by
      obtain ⟨new, heq, hnames, hlen⟩ :=
        processFeedLoop_items fetchO transl fr.name cap fr.entries st 0
      rw [heq, List.countP_append]
      have hblk : new.countP (fun i => i.feed_name == n) ≤ if fr.name == n then cap else 0 := by
        split_ifs with h
        · calc new.countP (fun i => i.feed_name == n)
              ≤ new.length := List.countP_le_length _
            _ ≤ cap - 0 := hlen
            _ ≤ cap := by omega
        · have : new.countP (fun i => i.feed_name == n) = 0 := by
            rw [List.countP_eq_zero]
            intro i hi
            rw [hnames i hi]
            simpa using h
          omega
      omega
    have hrest := ih (processFeedLoop fetchO transl fr.name cap fr.entries st 0)
    rw [List.foldl_cons, List.countP_cons]
    by_cases h : fr.name == n
    · rw [if_pos h] at hstep ⊢
      have hdist : (List.countP (fun fr => fr.name == n) rest + 1) * cap
          = List.countP (fun fr => fr.name == n) rest * cap + cap := by ring
      rw [hdist]
      omega
    · rw [if_neg h] at hstep ⊢
      have hdist : (List.countP (fun fr => fr.name == n) rest + 0) * cap
          = List.countP (fun fr => fr.name == n) rest * cap := by ring
      rw [hdist]
      omega

theorem count_names_le_one {feeds : List FeedResult} (n : String)
    (hnodup : (feeds.map FeedResult.name).Nodup) :
    feeds.countP (fun fr => fr.name == n) ≤ 1 := by
  have h1 : feeds.countP (fun fr => fr.name == n)
      = (feeds.map FeedResult.name).countP (fun s => s == n) := by
    rw [List.countP_map]
    rfl
  have h2 : (feeds.map FeedResult.name).countP (fun s => s == n)
      = (feeds.map FeedResult.name).count n := rfl
  rw [h1, h2]
  exact List.nodup_iff_count_le_one.1 hnodup n

/-- **C8**: if the feed names are pairwise distinct, at most
`max_items_per_feed` output items carry any one feed's name; and once the
per-feed counter reaches the cap, the loop returns without touching the
remaining entries. -/
theorem per_feed_cap (fetchO : String → ArticleFetchOutcome)
    (transl : String → String) (now : ℚ) (rs : List (Except String FeedResult))
    (cap tot : ℕ)
    (hnodup : (((rs.filterMap (fun r =>
        match r with
        | .ok fr => some fr
        | .error _ => none)).map FeedResult.name)).Nodup) :
    (∀ n : String,
        ((process_feed_entries fetchO transl now rs cap tot).countP
          (fun x => x.1.feed_name == n)) ≤ cap)
    ∧ (∀ (fn : String) (entries : List RawEntry) (st : DedupState) (k : ℕ),
        cap ≤ k → processFeedLoop fetchO transl fn cap entries st k = st) := by
  constructor
  · intro n
    have h1 : ((process_feed_entries fetchO transl now rs cap tot).countP
          (fun x => x.1.feed_name == n))
        ≤ ((sortArticles now (runItems fetchO transl rs cap)).countP
          (fun x => x.1.feed_name == n)) := by
      rw [process_eq_prioritize]
      exact (List.take_sublist _ _).countP_le _
    have h2 : ((sortArticles now (runItems fetchO transl rs cap)).countP
          (fun x => x.1.feed_name == n))
        = ((scoreArticles now (runItems fetchO transl rs cap)).countP
          (fun x => x.1.feed_name == n)) :=
      (List.perm_insertionSort scoreGE _).countP_eq _
    have h3 : ((scoreArticles now (runItems fetchO transl rs cap)).countP
          (fun x => x.1.feed_name == n))
        = ((runItems fetchO transl rs cap).countP (fun i => i.feed_name == n)) := by
      rw [scoreArticles, List.countP_map]
      rfl
    have h4 := foldl_countP fetchO transl cap n
      (rs.filterMap (fun r =>
        match r with
        | .ok fr => some fr
        | .error _ => none)) ⟨[], [], []⟩
    have h5 := count_names_le_one n hnodup
    have h6 : ((runItems fetchO transl rs cap).countP (fun i => i.feed_name == n)) ≤ cap := by
      simp only [runItems]
      calc _ ≤ _ := h4
        _ ≤ 0 + 1 * cap := by
            have : (([] : List NewsItem).countP (fun i => i.feed_name == n)) = 0 := rfl
            exact Nat.add_le_add (by simp) (Nat.mul_le_mul_right cap h5)
        _ = cap := by omega
    omega
  · intro fn entries st k h
    exact loop_capped fetchO transl fn cap entries st k h

/-- Witness for C8 at the scenario run (two distinct feed names, cap 5). -/
theorem per_feed_cap_witness :
    ((process_feed_entries scenarioFetch scenarioTransl 0
        [Except.ok feedA, Except.ok feedB] 5 30).countP
      (fun x => x.1.feed_name == "Feed A")) ≤ 5 :=
  (per_feed_cap scenarioFetch scenarioTransl 0 [Except.ok feedA, Except.ok feedB] 5 30
    (by decide)).1 "Feed A"

/-- **C9**: the scenario title cleans to exactly
"New LLM model beats GPT-4 benchmark" (prefix "Breaking:" and domain-like
suffix " - TechSite.com" stripped); the scorer finds exactly the keywords
"llm" and "gpt" in the cleaned title; the result is included with a
relevance score of at least 0.4. -/
theorem scenario_clean_and_score :
    clean_title "Breaking: New LLM model beats GPT-4 benchmark - TechSite.com"
      = "New LLM model beats GPT-4 benchmark"
    ∧ (AI_KEYWORDS.filter (fun kw =>
        strContains (strToLower "New LLM model beats GPT-4 benchmark") (strToLower kw)))
      = ["llm", "gpt"]
    ∧ (get_article_relevance_score "New LLM model beats GPT-4 benchmark" none).1 = true
    ∧ (4:ℚ)/10 ≤ (get_article_relevance_score "New LLM model beats GPT-4 benchmark" none).2 := by
  have hx : (EXCLUDE_KEYWORDS.any fun kw =>
      strContains (strToLower "New LLM model beats GPT-4 benchmark") (strToLower kw))
      = false := by decide
  have ht : titleMatches "New LLM model beats GPT-4 benchmark" = 2 := by decide
  have hs := score_eval "New LLM model beats GPT-4 benchmark" none (by decide) hx
  refine ⟨by decide, by decide, ?_, ?_⟩ <;>
    · rw [hs]
      simp only [titleContribution, ht, bodyContribution]
      norm_num

/-- Witness for C3 at a one-element list: length bound, score equation at
the member, and zero recency for `itemA` (which has no timestamp). -/
theorem prioritizer_spec_witness :
    (prioritize_articles [itemA] 30 0).length ≤ 30
    ∧ ((itemA, compositeScore 0 itemA) ∈ prioritize_articles [itemA] 30 0
        ∧ (itemA, compositeScore 0 itemA).2 = compositeScore 0 (itemA, compositeScore 0 itemA).1)
    ∧ (itemA.published_datetime = none
        ∧ compositeScore 0 itemA
          = (get_article_relevance_score itemA.title none).2 * 40
            + (if TRUSTED_SOURCES.any (fun t =>
                  strContains (strToLower itemA.source_name) t) then 15 else 0)) :=
  have hmem : (itemA, compositeScore 0 itemA) ∈ prioritize_articles [itemA] 30 0 := by
    simp [prioritize_articles, sortArticles, scoreArticles, List.insertionSort,
      List.orderedInsert]
  ⟨(prioritizer_spec [itemA] 30 0).1,
   ⟨hmem, (prioritizer_spec [itemA] 30 0).2.2.1 (itemA, compositeScore 0 itemA) hmem⟩,
   ⟨rfl, (prioritizer_spec [itemA] 30 0).2.2.2.2 itemA rfl⟩⟩
